import Mathlib

/-!
Verification model of `src/lib/redis/rediswriter.cpp` (the RedisWriter
component of the event-forwarding bridge).

Modelling conventions, each traced to the source:

* `m_Context` (a raw `redisContext*`) is modelled by the Boolean field
  `context` of `RedisWriterState`: `true` means the pointer is non-null
  (Connected), `false` means null (Disconnected).  `redisFree` followed by
  `m_Context = NULL` is modelled by setting `context := false`.
* `m_Subscriptions` (a `std::map<String, RedisSubscriptionInfo>`) is modelled
  as an association list with distinct keys; `m_Subscriptions[k] = v` is
  `mapInsert`, which replaces the entry when the key is present and appends
  otherwise.  Only the entry set matters to the claims, not the iteration
  order.
* Each `redisCommand(ctx, fmt, args...)` call site is recorded as a
  `RedisCall` constructor carrying exactly the arguments passed at that call
  site (including the superfluous `body.CStr()` argument of the EXPIRE call,
  line 273 of the source).  The actual wire command (the argv the hiredis
  formatter builds from the format string, with `%d` and `%s` consuming
  arguments and unreferenced trailing varargs ignored) is computed by
  `formatArgv` / `wire`.
* The reply the store returns for each command is an input: operations take
  the list of replies consumed positionally, one per issued command.  A
  `NULL` return from `redisCommand` is `RedisReply.nullReply`; an exhausted
  reply list is treated as `NULL` as well (the C function always returns
  something; `NULL` is the transport-dead case).
* `VERIFY(cond)` aborts the process when `cond` is false; operations
  containing a `VERIFY` therefore return `Option`, with `none` for the abort.
* The event dictionary (`Dictionary::Ptr event`) enters the pipeline only
  through `event->Get("type")` and `JsonEncode(event)`; `JsonEncode` lives in
  `base/json`, outside the reviewed source, so `DomainEvent` carries the
  `type` field and the already-serialized `body` as opaque strings.
* `JsonDecode` of a subscriber record (also from `base/json`) is an external
  collaborator; `UpdateSubscriptions` is parameterized by a decoder returning
  either a decode failure (the `catch` branch of the source) or the decoded
  optional `types` array.
* The `(int)index` casts at the SET/EXPIRE/LPUSH call sites (source lines
  253, 273, 302) are modelled by `toInt32`, two's-complement truncation of a
  `long long` value to `int`.
-/

/-- Structure `RedisSubscriptionInfo` (from `rediswriter.hpp`): the per-subscriber
event-type filter set.  `std::set<String>` is modelled as a list with
membership as the set-membership test. -/
structure RedisSubscriptionInfo where
  EventTypes : List String
deriving DecidableEq, Repr

/-- The mutable state of a `RedisWriter`: the connection handle `m_Context`
(null or not) and the subscription map `m_Subscriptions`. -/
structure RedisWriterState where
  context : Bool
  subscriptions : List (String × RedisSubscriptionInfo)
deriving DecidableEq, Repr

/-- A domain event as seen by `HandleEvent`: its `type` field (the result of
`event->Get("type")`, empty string when absent) and its serialized body
(the result of `JsonEncode(event)`, opaque here). -/
structure DomainEvent where
  type : String
  body : String
deriving DecidableEq, Repr

/-- A hiredis reply (`redisReply`), plus `nullReply` for a `NULL` return from
`redisCommand` (transport failure). -/
inductive RedisReply where
  | nullReply
  | status (s : String)
  | error (s : String)
  | integer (n : Int)
  | stringReply (s : String)
  | array (elems : List RedisReply)

/-- A reply that is neither a `NULL` return nor an error-typed reply; on such
replies every call site of the source proceeds past its early-return checks. -/
def isSuccess : RedisReply → Bool
  | .nullReply => false
  | .error _ => false
  | _ => true

/-- One `redisCommand` call site of the source, carrying exactly the C
arguments passed there.  `expireEvent` records the superfluous `body`
argument of source line 273. -/
inductive RedisCall where
  | incrIdx
  | setEvent (index32 : Int) (body : String)
  | expireEvent (index32 : Int) (body : String)
  | lpushSub (name : String) (index32 : Int)
  | hgetallSubs
  | auth (password : String)
deriving DecidableEq, Repr

/-- An argument passed to `redisCommand` after the format string. -/
inductive FmtArg where
  | intArg (n : Int)
  | strArg (s : String)

/-- The hiredis command formatter (`redisvFormatCommand`): the format string
is split on spaces into argv entries; `%d` and `%s` splice the next vararg
into the current entry; varargs not referenced by a specifier are ignored.
The accumulator is `none` when no character of the current entry has been
seen yet. -/
def formatArgv : List Char → List FmtArg → Option String → List String
  | [], _, none => []
  | [], _, some t => [t]
  | ' ' :: rest, args, none => formatArgv rest args none
  | ' ' :: rest, args, some t => t :: formatArgv rest args none
  | '%' :: 'd' :: rest, .intArg n :: args, cur =>
      formatArgv rest args (some ((cur.getD "") ++ toString n))
  | '%' :: 's' :: rest, .strArg s :: args, cur =>
      formatArgv rest args (some ((cur.getD "") ++ s))
  | c :: rest, args, cur => formatArgv rest args (some ((cur.getD "") ++ String.singleton c))

/-- The wire command (argv) each call site produces: the source format string
and the source argument list, run through the formatter. -/
def wire : RedisCall → List String
  | .incrIdx => formatArgv "INCR icinga:event.idx".toList [] none
  | .setEvent i b => formatArgv "SET icinga:event.%d %s".toList [.intArg i, .strArg b] none
  | .expireEvent i b => formatArgv "EXPIRE icinga:event.%d 3600".toList [.intArg i, .strArg b] none
  | .lpushSub name i => formatArgv "LPUSH icinga:event:%s %d".toList [.strArg name, .intArg i] none
  | .hgetallSubs => formatArgv "HGETALL icinga:subscription".toList [] none
  | .auth pw => formatArgv "AUTH %s".toList [.strArg pw] none

/-- Two's-complement truncation of a `long long` value to `int`, the effect
of the `(int)index` casts on source lines 253, 273 and 302. -/
def toInt32 (n : Int) : Int :=
  (n + 2147483648) % 4294967296 - 2147483648

/-- The membership test `rsi.EventTypes.find(type) != rsi.EventTypes.end()`
deciding whether a subscriber receives the event (source line 299). -/
def eventTypeMatches (ty : String) (rsi : RedisSubscriptionInfo) : Bool :=
  decide (ty ∈ rsi.EventTypes)

/-- The fan-out loop of `HandleEvent` (source lines 295-321): for each
subscription in map order, if the event type is in the filter set, issue
`LPUSH icinga:event:<name> <index>` and examine its reply.  A `NULL` reply
frees the connection and returns; an error-typed reply returns with the
connection kept; any other reply continues with the next subscriber.
Returns whether the connection handle survived, and the issued calls. -/
def fanOutLoop (index32 : Int) (eventType : String) :
    List (String × RedisSubscriptionInfo) → List RedisReply → Bool × List RedisCall
  | [], _ => (true, [])
  | (name, rsi) :: rest, replies =>
    if eventTypeMatches eventType rsi then
      match replies with
      | [] => (false, [.lpushSub name index32])
      | .nullReply :: _ => (false, [.lpushSub name index32])
      | .error _ :: _ => (true, [.lpushSub name index32])
      | _ :: rs =>
        let res := fanOutLoop index32 eventType rest rs
        (res.1, .lpushSub name index32 :: res.2)
    else
      fanOutLoop index32 eventType rest replies

/-- Function `RedisWriter::HandleEvent` (source lines 214-322), the publish pipeline
for one event.  Returns `none` when `VERIFY(reply1->type ==
REDIS_REPLY_INTEGER)` (line 244) aborts, otherwise the new state and the
sequence of issued commands.  Replies are consumed positionally from
`replies`. -/
def HandleEvent (st : RedisWriterState) (event : DomainEvent) (replies : List RedisReply) :
    Option (RedisWriterState × List RedisCall) :=
  if st.context = false then
    some (st, [])
  else
    match replies with
    | [] => some ({ st with context := false }, [.incrIdx])
    | .nullReply :: _ => some ({ st with context := false }, [.incrIdx])
    | .error _ :: _ => some (st, [.incrIdx])
    | .integer n :: rest1 =>
      let index32 := toInt32 n
      let body := event.body
      match rest1 with
      | [] => some ({ st with context := false }, [.incrIdx, .setEvent index32 body])
      | .nullReply :: _ => some ({ st with context := false }, [.incrIdx, .setEvent index32 body])
      | .error _ :: _ => some (st, [.incrIdx, .setEvent index32 body])
      | _ :: rest2 =>
        match rest2 with
        | [] => some ({ st with context := false },
            [.incrIdx, .setEvent index32 body, .expireEvent index32 body])
        | .nullReply :: _ => some ({ st with context := false },
            [.incrIdx, .setEvent index32 body, .expireEvent index32 body])
        | .error _ :: _ => some (st,
            [.incrIdx, .setEvent index32 body, .expireEvent index32 body])
        | _ :: rest3 =>
          let fan := fanOutLoop index32 event.type st.subscriptions rest3
          some ({ st with context := fan.1 },
            .incrIdx :: .setEvent index32 body :: .expireEvent index32 body :: fan.2)
    | _ :: _ => none

/-- The configuration surface read by `TryToReconnect`: `GetPath()`,
`GetHost()`, `GetPort()`, `GetPassword()`. -/
structure RedisConfig where
  path : String
  host : String
  port : Nat
  password : String
deriving DecidableEq, Repr

/-- The outcome of `redisConnect` / `redisConnectUnix` (source lines 73-76):
allocation failure (`!m_Context`), a context with its error flag set
(`m_Context->err`), or a usable context. -/
inductive ConnectOutcome where
  | allocFail
  | errorSet (msg : String)
  | ok
deriving DecidableEq, Repr

/-- The transport target `TryToReconnect` selects (source lines 73-76):
the unix-socket path when non-empty, else host and port. -/
inductive ConnectTarget where
  | tcp (host : String) (port : Nat)
  | unix (path : String)
deriving DecidableEq, Repr

/-- The target selection of source lines 73-76: `path` takes precedence when
set. -/
def connectTarget (cfg : RedisConfig) : ConnectTarget :=
  if cfg.path = "" then .tcp cfg.host cfg.port else .unix cfg.path

/-- Function `RedisWriter::TryToReconnect` (source lines 63-112).  A no-op when the
context is already set.  Otherwise connects (outcome given as input); on
failure any allocated context is freed.  On success, if a password is
configured one `AUTH` command is issued: a `NULL` reply frees the context,
any typed reply (status, error, ...) is only logged and the context is kept. -/
def TryToReconnect (cfg : RedisConfig) (st : RedisWriterState)
    (outcome : ConnectOutcome) (authReply : RedisReply) :
    RedisWriterState × List RedisCall :=
  if st.context then
    (st, [])
  else
    match outcome with
    | .allocFail => ({ st with context := false }, [])
    | .errorSet _ => ({ st with context := false }, [])
    | .ok =>
      if cfg.password = "" then
        ({ st with context := true }, [])
      else
        match authReply with
        | .nullReply => ({ st with context := false }, [.auth cfg.password])
        | _ => ({ st with context := true }, [.auth cfg.password])

/-- The result of running `JsonDecode` on one subscriber record value and
extracting its `"types"` field (source lines 153-163).  `decodeFail` is the
`catch` branch (lines 166-171); `decoded types` carries the optional
`types` array converted to a string set. -/
inductive SubDecodeResult where
  | decodeFail
  | decoded (types : Option (List String))
deriving DecidableEq, Repr

/-- The `RedisSubscriptionInfo` built from a successfully decoded record:
default-constructed (empty filter), then `EventTypes` assigned when the
`types` field is present (source lines 158-163). -/
def rsiOfDecoded : SubDecodeResult → RedisSubscriptionInfo
  | .decodeFail => { EventTypes := [] }
  | .decoded types => { EventTypes := types.getD [] }

/-- Assignment `m_Subscriptions[key] = value` on the `std::map` (source line 165):
replace the entry when the key is present, insert otherwise. -/
def mapInsert (k : String) (v : RedisSubscriptionInfo) :
    List (String × RedisSubscriptionInfo) → List (String × RedisSubscriptionInfo)
  | [] => [(k, v)]
  | (k', v') :: rest => if k' = k then (k, v) :: rest else (k', v') :: mapInsert k v rest

/-- Lookup in the subscription map. -/
def mapLookup (k : String) : List (String × RedisSubscriptionInfo) → Option RedisSubscriptionInfo
  | [] => none
  | (k', v') :: rest => if k' = k then some v' else mapLookup k rest

/-- The pairwise decoding of the flat `HGETALL` array reply (source lines
143-150): elements are taken two at a time, each `VERIFY`-ed to be a string;
`none` when the element count is odd or an element is not a string. -/
def toPairs : List RedisReply → Option (List (String × String))
  | [] => some []
  | .stringReply k :: .stringReply v :: rest => (toPairs rest).map (fun l => (k, v) :: l)
  | _ => none

/-- The record-processing loop of `UpdateSubscriptions` (source lines
145-173), run on the already-cleared map: a record whose value fails to
decode is logged and skipped; otherwise the decoded filter is installed
under the record's key. -/
def buildTableLoop (decode : String → SubDecodeResult) :
    List (String × String) → List (String × RedisSubscriptionInfo) →
    List (String × RedisSubscriptionInfo)
  | [], m => m
  | (k, v) :: rest, m =>
    match decode v with
    | .decodeFail => buildTableLoop decode rest m
    | .decoded types => buildTableLoop decode rest (mapInsert k (rsiOfDecoded (.decoded types)) m)

/-- Function `RedisWriter::UpdateSubscriptions` (source lines 119-176).  A no-op when
disconnected.  Issues `HGETALL icinga:subscription`; a `NULL` reply frees
the connection.  Otherwise `VERIFY` demands an array reply of even length
with string elements (abort = `none`); the subscription map is cleared and
rebuilt from the pairs. -/
def UpdateSubscriptions (decode : String → SubDecodeResult) (st : RedisWriterState)
    (reply : RedisReply) : Option (RedisWriterState × List RedisCall) :=
  if st.context = false then
    some (st, [])
  else
    match reply with
    | .nullReply => some ({ st with context := false }, [.hgetallSubs])
    | .array elems =>
      match toPairs elems with
      | none => none
      | some pairs =>
        some ({ st with subscriptions := buildTableLoop decode pairs [] }, [.hgetallSubs])
    | _ => none

/-- The operations a timer callback or loop can hand over. -/
inductive RedisWriterOp where
  | tryToReconnectOp
  | updateSubscriptionsOp
  | handleEventOp
deriving DecidableEq, Repr

/-- How a piece of work reaches execution: run directly on the calling
thread, or enqueued on `m_WorkQueue` (the CommandSequencer). -/
inductive WorkSubmission where
  | direct (op : RedisWriterOp)
  | viaWorkQueue (op : RedisWriterOp)
deriving DecidableEq, Repr

/-- What `Start` connects to `m_ReconnectTimer->OnTimerExpired` (source line
45): `boost::bind(&RedisWriter::TryToReconnect, this)` — the operation
itself, run directly on the timer thread. -/
def startReconnectTimerCallback : WorkSubmission := .direct .tryToReconnectOp

/-- What `Start` connects to `m_SubscriptionTimer->OnTimerExpired` (source
line 51): `boost::bind(&RedisWriter::UpdateSubscriptions, this)` — run
directly on the timer thread. -/
def startSubscriptionTimerCallback : WorkSubmission := .direct .updateSubscriptionsOp

/-- What `RedisWriter::ReconnectTimerHandler` (source lines 58-61) does:
`m_WorkQueue.Enqueue(boost::bind(&RedisWriter::TryToReconnect, this))`.
This handler exists but `Start` never connects it to a timer. -/
def reconnectTimerHandlerSubmission : WorkSubmission := .viaWorkQueue .tryToReconnectOp

/-- What `RedisWriter::UpdateSubscriptionsTimerHandler` (source lines
114-117) does: `m_WorkQueue.Enqueue(boost::bind(&RedisWriter::UpdateSubscriptions,
this))`.  Also never connected by `Start`. -/
def updateSubscriptionsTimerHandlerSubmission : WorkSubmission :=
  .viaWorkQueue .updateSubscriptionsOp

/-- What the `HandleEvents` loop does with each received event (source line
207): `m_WorkQueue.Enqueue(boost::bind(&RedisWriter::HandleEvent, this, event))`. -/
def handleEventsLoopSubmission : WorkSubmission := .viaWorkQueue .handleEventOp
/-- The flat alternating key/value array the store returns for a list of
subscriber records. -/
def flattenPairs : List (String × String) → List RedisReply
  | [] => []
  | (k, v) :: rest => .stringReply k :: .stringReply v :: flattenPairs rest

/-- Whether a call is an `LPUSH` targeting subscriber `s`. -/
def isLpushTo (s : String) : RedisCall → Bool
  | .lpushSub name _ => decide (name = s)
  | _ => false

/-- Whether a call's embedded event index (if it has one) equals `i`. -/
def embedsIndex (i : Int) : RedisCall → Bool
  | .setEvent j _ => decide (j = i)
  | .expireEvent j _ => decide (j = i)
  | .lpushSub _ j => decide (j = i)
  | _ => true

/-! ## Helper lemmas -/

/-- Every call the fan-out loop issues is an `LPUSH` carrying the allocated
index, for a subscriber present in the map whose filter matches. -/
theorem fanOutLoop_mem (index32 : Int) (eventType : String)
    (subs : List (String × RedisSubscriptionInfo)) (replies : List RedisReply)
    (c : RedisCall) (hc : c ∈ (fanOutLoop index32 eventType subs replies).2) :
    ∃ name rsi, c = .lpushSub name index32 ∧ (name, rsi) ∈ subs ∧
      eventTypeMatches eventType rsi = true := by
  induction subs generalizing replies with
  | nil => simp [fanOutLoop] at hc
  | cons p rest ih =>
    obtain ⟨name, rsi⟩ := p
    by_cases hm : eventTypeMatches eventType rsi = true
    · cases replies with
      | nil =>
        simp [fanOutLoop, hm] at hc
        exact ⟨name, rsi, hc, by simp, hm⟩
      | cons r rs =>
        cases r with
        | nullReply =>
          simp [fanOutLoop, hm] at hc
          exact ⟨name, rsi, hc, by simp, hm⟩
        | error e =>
          simp [fanOutLoop, hm] at hc
          exact ⟨name, rsi, hc, by simp, hm⟩
        | status s =>
          simp [fanOutLoop, hm] at hc
          rcases hc with hc | hc
          · exact ⟨name, rsi, hc, by simp, hm⟩
          · obtain ⟨n2, r2, he, hmem, hm2⟩ := ih rs hc
            exact ⟨n2, r2, he, by simp [hmem], hm2⟩
        | integer n =>
          simp [fanOutLoop, hm] at hc
          rcases hc with hc | hc
          · exact ⟨name, rsi, hc, by simp, hm⟩
          · obtain ⟨n2, r2, he, hmem, hm2⟩ := ih rs hc
            exact ⟨n2, r2, he, by simp [hmem], hm2⟩
        | stringReply s =>
          simp [fanOutLoop, hm] at hc
          rcases hc with hc | hc
          · exact ⟨name, rsi, hc, by simp, hm⟩
          · obtain ⟨n2, r2, he, hmem, hm2⟩ := ih rs hc
            exact ⟨n2, r2, he, by simp [hmem], hm2⟩
        | array a =>
          simp [fanOutLoop, hm] at hc
          rcases hc with hc | hc
          · exact ⟨name, rsi, hc, by simp, hm⟩
          · obtain ⟨n2, r2, he, hmem, hm2⟩ := ih rs hc
            exact ⟨n2, r2, he, by simp [hmem], hm2⟩
    · simp [fanOutLoop, hm] at hc
      obtain ⟨n2, r2, he, hmem, hm2⟩ := ih replies hc
      exact ⟨n2, r2, he, by simp [hmem], hm2⟩

/-- When every supplied reply is a success and there are enough replies for
all matching subscribers, the fan-out loop completes, keeps the connection,
and issues exactly one `LPUSH` per matching subscriber, in map order. -/
theorem fanOutLoop_allSuccess (index32 : Int) (eventType : String)
    (subs : List (String × RedisSubscriptionInfo)) (replies : List RedisReply)
    (hs : ∀ r ∈ replies, isSuccess r = true)
    (hlen : (subs.filter (fun p => eventTypeMatches eventType p.2)).length ≤ replies.length) :
    fanOutLoop index32 eventType subs replies =
      (true, (subs.filter (fun p => eventTypeMatches eventType p.2)).map
        (fun p => RedisCall.lpushSub p.1 index32)) := by
  induction subs generalizing replies with
  | nil => simp [fanOutLoop]
  | cons p rest ih =>
    obtain ⟨name, rsi⟩ := p
    by_cases hm : eventTypeMatches eventType rsi = true
    · rw [List.filter_cons_of_pos (by simpa using hm)] at hlen ⊢
      cases replies with
      | nil => simp at hlen
      | cons r rs =>
        have hr : isSuccess r = true := hs r (by simp)
        have hs2 : ∀ x ∈ rs, isSuccess x = true := fun x hx => hs x (by simp [hx])
        have hlen2 : (rest.filter (fun p => eventTypeMatches eventType p.2)).length ≤
            rs.length := by
          simpa using hlen
        cases r with
        | status s => simp [fanOutLoop, hm, ih rs hs2 hlen2]
        | integer n => simp [fanOutLoop, hm, ih rs hs2 hlen2]
        | stringReply s => simp [fanOutLoop, hm, ih rs hs2 hlen2]
        | array a => simp [fanOutLoop, hm, ih rs hs2 hlen2]
        | nullReply => simp [isSuccess] at hr
        | error e => simp [isSuccess] at hr
    · rw [List.filter_cons_of_neg (by simpa using hm)] at hlen ⊢
      simp [fanOutLoop, hm]
      exact ih replies hs hlen

/-- The publish pipeline on the success path: connected, integer INCR reply,
successful SET and EXPIRE replies.  The trace is INCR, SET, EXPIRE, then the
fan-out calls, all embedding the truncated index. -/
theorem HandleEvent_success (st : RedisWriterState) (ev : DomainEvent) (n : Int)
    (r2 r3 : RedisReply) (lrs : List RedisReply)
    (hctx : st.context = true) (h2 : isSuccess r2 = true) (h3 : isSuccess r3 = true) :
    HandleEvent st ev (.integer n :: r2 :: r3 :: lrs) =
      some ({ st with context := (fanOutLoop (toInt32 n) ev.type st.subscriptions lrs).1 },
        .incrIdx :: .setEvent (toInt32 n) ev.body :: .expireEvent (toInt32 n) ev.body ::
          (fanOutLoop (toInt32 n) ev.type st.subscriptions lrs).2) := by
  cases r2 <;> cases r3 <;> simp_all [HandleEvent, isSuccess]

/-- Shape of any publish-pipeline trace: either it contains no `LPUSH` at
all, or the replies were integer-then-success-then-success and the trace is
INCR, SET, EXPIRE followed by the fan-out calls. -/
theorem HandleEvent_shape (st : RedisWriterState) (ev : DomainEvent)
    (replies : List RedisReply) (st2 : RedisWriterState) (trace : List RedisCall)
    (h : HandleEvent st ev replies = some (st2, trace)) :
    (∀ name i, RedisCall.lpushSub name i ∉ trace) ∨
    (∃ n r2 r3 lrs, replies = .integer n :: r2 :: r3 :: lrs ∧
      isSuccess r2 = true ∧ isSuccess r3 = true ∧
      trace = .incrIdx :: .setEvent (toInt32 n) ev.body :: .expireEvent (toInt32 n) ev.body ::
        (fanOutLoop (toInt32 n) ev.type st.subscriptions lrs).2) := by
  cases hctx : st.context with
  | false =>
    left; simp [HandleEvent, hctx] at h; obtain ⟨h1, h2⟩ := h; subst h2; simp
  | true =>
    cases replies with
    | nil => left; simp [HandleEvent, hctx] at h; obtain ⟨h1, h2⟩ := h; subst h2; simp
    | cons r1 rest1 =>
      cases r1 with
      | nullReply => left; simp [HandleEvent, hctx] at h; obtain ⟨h1, h2⟩ := h; subst h2; simp
      | error e1 => left; simp [HandleEvent, hctx] at h; obtain ⟨h1, h2⟩ := h; subst h2; simp
      | status s1 => simp [HandleEvent, hctx] at h
      | stringReply ss1 => simp [HandleEvent, hctx] at h
      | array a1 => simp [HandleEvent, hctx] at h
      | integer n =>
        cases rest1 with
        | nil => left; simp [HandleEvent, hctx] at h; obtain ⟨h1, h2⟩ := h; subst h2; simp
        | cons r2 rest2 =>
          cases r2 with
          | nullReply => left; simp [HandleEvent, hctx] at h; obtain ⟨h1, h2⟩ := h; subst h2; simp
          | error e2 => left; simp [HandleEvent, hctx] at h; obtain ⟨h1, h2⟩ := h; subst h2; simp
          | status s2 =>
            cases rest2 with
            | nil => left; simp [HandleEvent, hctx] at h; obtain ⟨h1, h2⟩ := h; subst h2; simp
            | cons r3 rest3 =>
              cases r3 with
              | nullReply => left; simp [HandleEvent, hctx] at h; obtain ⟨h1, h2⟩ := h; subst h2; simp
              | error e3 => left; simp [HandleEvent, hctx] at h; obtain ⟨h1, h2⟩ := h; subst h2; simp
              | status s3 =>
                simp [HandleEvent, hctx] at h
                obtain ⟨h1, h2⟩ := h
                subst h2
                right
                exact ⟨n, _, _, rest3, rfl, by simp [isSuccess], by simp [isSuccess], by simp⟩
              | integer n3 =>
                simp [HandleEvent, hctx] at h
                obtain ⟨h1, h2⟩ := h
                subst h2
                right
                exact ⟨n, _, _, rest3, rfl, by simp [isSuccess], by simp [isSuccess], by simp⟩
              | stringReply ss3 =>
                simp [HandleEvent, hctx] at h
                obtain ⟨h1, h2⟩ := h
                subst h2
                right
                exact ⟨n, _, _, rest3, rfl, by simp [isSuccess], by simp [isSuccess], by simp⟩
              | array a3 =>
                simp [HandleEvent, hctx] at h
                obtain ⟨h1, h2⟩ := h
                subst h2
                right
                exact ⟨n, _, _, rest3, rfl, by simp [isSuccess], by simp [isSuccess], by simp⟩
          | integer n2 =>
            cases rest2 with
            | nil => left; simp [HandleEvent, hctx] at h; obtain ⟨h1, h2⟩ := h; subst h2; simp
            | cons r3 rest3 =>
              cases r3 with
              | nullReply => left; simp [HandleEvent, hctx] at h; obtain ⟨h1, h2⟩ := h; subst h2; simp
              | error e3 => left; simp [HandleEvent, hctx] at h; obtain ⟨h1, h2⟩ := h; subst h2; simp
              | status s3 =>
                simp [HandleEvent, hctx] at h
                obtain ⟨h1, h2⟩ := h
                subst h2
                right
                exact ⟨n, _, _, rest3, rfl, by simp [isSuccess], by simp [isSuccess], by simp⟩
              | integer n3 =>
                simp [HandleEvent, hctx] at h
                obtain ⟨h1, h2⟩ := h
                subst h2
                right
                exact ⟨n, _, _, rest3, rfl, by simp [isSuccess], by simp [isSuccess], by simp⟩
              | stringReply ss3 =>
                simp [HandleEvent, hctx] at h
                obtain ⟨h1, h2⟩ := h
                subst h2
                right
                exact ⟨n, _, _, rest3, rfl, by simp [isSuccess], by simp [isSuccess], by simp⟩
              | array a3 =>
                simp [HandleEvent, hctx] at h
                obtain ⟨h1, h2⟩ := h
                subst h2
                right
                exact ⟨n, _, _, rest3, rfl, by simp [isSuccess], by simp [isSuccess], by simp⟩
          | stringReply ss2 =>
            cases rest2 with
            | nil => left; simp [HandleEvent, hctx] at h; obtain ⟨h1, h2⟩ := h; subst h2; simp
            | cons r3 rest3 =>
              cases r3 with
              | nullReply => left; simp [HandleEvent, hctx] at h; obtain ⟨h1, h2⟩ := h; subst h2; simp
              | error e3 => left; simp [HandleEvent, hctx] at h; obtain ⟨h1, h2⟩ := h; subst h2; simp
              | status s3 =>
                simp [HandleEvent, hctx] at h
                obtain ⟨h1, h2⟩ := h
                subst h2
                right
                exact ⟨n, _, _, rest3, rfl, by simp [isSuccess], by simp [isSuccess], by simp⟩
              | integer n3 =>
                simp [HandleEvent, hctx] at h
                obtain ⟨h1, h2⟩ := h
                subst h2
                right
                exact ⟨n, _, _, rest3, rfl, by simp [isSuccess], by simp [isSuccess], by simp⟩
              | stringReply ss3 =>
                simp [HandleEvent, hctx] at h
                obtain ⟨h1, h2⟩ := h
                subst h2
                right
                exact ⟨n, _, _, rest3, rfl, by simp [isSuccess], by simp [isSuccess], by simp⟩
              | array a3 =>
                simp [HandleEvent, hctx] at h
                obtain ⟨h1, h2⟩ := h
                subst h2
                right
                exact ⟨n, _, _, rest3, rfl, by simp [isSuccess], by simp [isSuccess], by simp⟩
          | array a2 =>
            cases rest2 with
            | nil => left; simp [HandleEvent, hctx] at h; obtain ⟨h1, h2⟩ := h; subst h2; simp
            | cons r3 rest3 =>
              cases r3 with
              | nullReply => left; simp [HandleEvent, hctx] at h; obtain ⟨h1, h2⟩ := h; subst h2; simp
              | error e3 => left; simp [HandleEvent, hctx] at h; obtain ⟨h1, h2⟩ := h; subst h2; simp
              | status s3 =>
                simp [HandleEvent, hctx] at h
                obtain ⟨h1, h2⟩ := h
                subst h2
                right
                exact ⟨n, _, _, rest3, rfl, by simp [isSuccess], by simp [isSuccess], by simp⟩
              | integer n3 =>
                simp [HandleEvent, hctx] at h
                obtain ⟨h1, h2⟩ := h
                subst h2
                right
                exact ⟨n, _, _, rest3, rfl, by simp [isSuccess], by simp [isSuccess], by simp⟩
              | stringReply ss3 =>
                simp [HandleEvent, hctx] at h
                obtain ⟨h1, h2⟩ := h
                subst h2
                right
                exact ⟨n, _, _, rest3, rfl, by simp [isSuccess], by simp [isSuccess], by simp⟩
              | array a3 =>
                simp [HandleEvent, hctx] at h
                obtain ⟨h1, h2⟩ := h
                subst h2
                right
                exact ⟨n, _, _, rest3, rfl, by simp [isSuccess], by simp [isSuccess], by simp⟩

/-- Truncation is the identity on values that fit in a 32-bit signed int. -/
theorem toInt32_eq_of_range (n : Int) (hlo : -2147483648 ≤ n) (hhi : n < 2147483648) :
    toInt32 n = n := by
  unfold toInt32
  omega

/-- Pairwise decoding inverts flattening. -/
theorem toPairs_flattenPairs (l : List (String × String)) :
    toPairs (flattenPairs l) = some l := by
  induction l with
  | nil => simp [flattenPairs, toPairs]
  | cons p rest ih =>
    obtain ⟨k, v⟩ := p
    simp [flattenPairs, toPairs, ih]

/-- Inserting a fresh key appends the entry. -/
theorem mapInsert_fresh (k : String) (v : RedisSubscriptionInfo)
    (m : List (String × RedisSubscriptionInfo)) (hk : k ∉ m.map Prod.fst) :
    mapInsert k v m = m ++ [(k, v)] := by
  induction m with
  | nil => simp [mapInsert]
  | cons p rest ih =>
    obtain ⟨k', v'⟩ := p
    have hne : k' ≠ k := by
      intro he
      exact hk (by simp [he])
    have hk2 : k ∉ rest.map Prod.fst := by
      intro hm
      exact hk (by simp; right; simpa using hm)
    simp [mapInsert, hne, ih hk2]

/-- A record whose value fails to decode is skipped: the table built from the
input with the malformed record equals the table built without it. -/
theorem buildTableLoop_skip (decode : String → SubDecodeResult)
    (l1 l2 : List (String × String)) (bk bv : String)
    (hbad : decode bv = .decodeFail) (m : List (String × RedisSubscriptionInfo)) :
    buildTableLoop decode (l1 ++ (bk, bv) :: l2) m = buildTableLoop decode (l1 ++ l2) m := by
  induction l1 generalizing m with
  | nil => simp [buildTableLoop, hbad]
  | cons p rest ih =>
    obtain ⟨k, v⟩ := p
    cases hdv : decode v with
    | decodeFail => simp [buildTableLoop, hdv, ih]
    | decoded types => simp [buildTableLoop, hdv, ih]

/-- When every record decodes and the keys are distinct and fresh, the loop
appends one entry per record, in order, with the decoded filter. -/
theorem buildTableLoop_toMap (decode : String → SubDecodeResult)
    (pairs : List (String × String)) (m : List (String × RedisSubscriptionInfo))
    (hdec : ∀ p ∈ pairs, decode p.2 ≠ SubDecodeResult.decodeFail)
    (hnd : (pairs.map Prod.fst).Nodup)
    (hfresh : ∀ x ∈ pairs.map Prod.fst, x ∉ m.map Prod.fst) :
    buildTableLoop decode pairs m =
      m ++ pairs.map (fun p => (p.1, rsiOfDecoded (decode p.2))) := by
  induction pairs generalizing m with
  | nil => simp [buildTableLoop]
  | cons p rest ih =>
    obtain ⟨k, v⟩ := p
    cases hdv : decode v with
    | decodeFail => exact absurd hdv (hdec (k, v) (by simp))
    | decoded types =>
      have hk : k ∉ m.map Prod.fst := hfresh k (by simp)
      have hnd2 : (rest.map Prod.fst).Nodup := by
        rw [List.map_cons, List.nodup_cons] at hnd
        exact hnd.2
      have hknotrest : k ∉ rest.map Prod.fst := by
        rw [List.map_cons, List.nodup_cons] at hnd
        exact hnd.1
      have hfresh2 : ∀ x ∈ rest.map Prod.fst,
          x ∉ (m ++ [(k, rsiOfDecoded (.decoded types))]).map Prod.fst := by
        intro x hx
        rw [List.map_append]
        intro hmem
        rcases List.mem_append.mp hmem with hxm | hxk
        · exact hfresh x (by simp; right; simpa using hx) hxm
        · simp at hxk
          exact hknotrest (hxk ▸ hx)
      have hdec2 : ∀ p ∈ rest, decode p.2 ≠ SubDecodeResult.decodeFail :=
        fun p hp => hdec p (by simp [hp])
      rw [buildTableLoop, hdv]
      show buildTableLoop decode rest (mapInsert k (rsiOfDecoded (.decoded types)) m) =
        m ++ ((k, v) :: rest).map (fun p => (p.1, rsiOfDecoded (decode p.2)))
      rw [mapInsert_fresh k _ m hk, ih _ hdec2 hnd2 hfresh2]
      simp [hdv]

/-- In a map with distinct keys, lookup of a present entry returns its value. -/
theorem mapLookup_of_mem_nodup (k : String) (x : RedisSubscriptionInfo)
    (m : List (String × RedisSubscriptionInfo))
    (hnd : (m.map Prod.fst).Nodup) (hmem : (k, x) ∈ m) :
    mapLookup k m = some x := by
  induction m with
  | nil => simp at hmem
  | cons p rest ih =>
    obtain ⟨k', v'⟩ := p
    rw [List.map_cons, List.nodup_cons] at hnd
    rcases List.mem_cons.mp hmem with heq | htail
    · injection heq with hk hv
      subst hk
      subst hv
      simp [mapLookup]
    · have hne : k' ≠ k := by
        intro he
        subst he
        exact hnd.1 (List.mem_map.mpr ⟨(k', x), htail, rfl⟩)
      rw [mapLookup, if_neg hne]
      exact ih hnd.2 htail

/-- In a list with no duplicates, the number of occurrences of an element is
one when present and zero otherwise. -/
theorem countP_eq_key_of_nodup (s : String) (l : List String) (hnd : l.Nodup) :
    l.countP (fun y => decide (y = s)) = if s ∈ l then 1 else 0 := by
  induction l with
  | nil => simp
  | cons a rest ih =>
    rw [List.nodup_cons] at hnd
    by_cases has : a = s
    · subst has
      simp [List.countP_cons, ih hnd.2, hnd.1]
    · have hsa : ¬(s = a) := fun h => has h.symm
      rw [List.countP_cons]
      simp [has, hsa, ih hnd.2, List.mem_cons]

/-! ## Claim theorems -/

/-- Claim C1: the claim says every reconnect attempt and every subscription
refresh is submitted to the work queue rather than executed directly by its
timer.  The code wires both timers straight to the operations: `Start`
connects `OnTimerExpired` to `TryToReconnect` and `UpdateSubscriptions`
themselves (direct execution on the timer thread), while the enqueueing
handlers `ReconnectTimerHandler` and `UpdateSubscriptionsTimerHandler`
exist but are never connected; only the event path goes through
`m_WorkQueue`. -/
theorem c1_timer_wiring :
    startReconnectTimerCallback = WorkSubmission.direct .tryToReconnectOp ∧
    startSubscriptionTimerCallback = WorkSubmission.direct .updateSubscriptionsOp ∧
    startReconnectTimerCallback ≠ WorkSubmission.viaWorkQueue .tryToReconnectOp ∧
    startSubscriptionTimerCallback ≠ WorkSubmission.viaWorkQueue .updateSubscriptionsOp ∧
    reconnectTimerHandlerSubmission = WorkSubmission.viaWorkQueue .tryToReconnectOp ∧
    updateSubscriptionsTimerHandlerSubmission =
      WorkSubmission.viaWorkQueue .updateSubscriptionsOp ∧
    handleEventsLoopSubmission = WorkSubmission.viaWorkQueue .handleEventOp := by
  decide

/-- Claim C2, counterexample: with a connected state and an error-typed INCR
reply, the pipeline issues only the INCR (zero SET/EXPIRE/LPUSH), but the
resulting state still has `context = true`: the connection does NOT
transition to Disconnected as the claim states. -/
theorem c2_counterexample :
    HandleEvent ⟨true, []⟩ ⟨"StateChange", "body2"⟩ [.error "ERR wrongtype"] =
      some (⟨true, []⟩, [.incrIdx]) ∧
    (⟨true, []⟩ : RedisWriterState).context = true := by
  exact ⟨rfl, rfl⟩

/-- Claim C2 (amended): when the INCR reply is error-typed, the pipeline
issues zero SET/EXPIRE/LPUSH commands and drops the event, but the
connection remains Connected; the connection transitions to Disconnected
only when the INCR reply is null (transport failure). -/
theorem c2_amended (st : RedisWriterState) (ev : DomainEvent) (msg : String)
    (rest rest2 : List RedisReply) (hctx : st.context = true) :
    HandleEvent st ev (.error msg :: rest) = some (st, [.incrIdx]) ∧
    HandleEvent st ev (.nullReply :: rest2) =
      some ({ st with context := false }, [.incrIdx]) := by
  constructor <;> simp [HandleEvent, hctx]

/-- Witness for C2 (amended) at a concrete connected state. -/
theorem c2_witness :
    (⟨true, [("s1", ⟨["StateChange"]⟩)]⟩ : RedisWriterState).context = true ∧
    HandleEvent ⟨true, [("s1", ⟨["StateChange"]⟩)]⟩ ⟨"StateChange", "bw2"⟩
        [.error "ERR oom"] = some (⟨true, [("s1", ⟨["StateChange"]⟩)]⟩, [.incrIdx]) ∧
    HandleEvent ⟨true, [("s1", ⟨["StateChange"]⟩)]⟩ ⟨"StateChange", "bw2"⟩
        [.nullReply] = some (⟨false, [("s1", ⟨["StateChange"]⟩)]⟩, [.incrIdx]) :=
  ⟨rfl,
   (c2_amended ⟨true, [("s1", ⟨["StateChange"]⟩)]⟩ ⟨"StateChange", "bw2"⟩ "ERR oom"
     [] [] rfl).1,
   (c2_amended ⟨true, [("s1", ⟨["StateChange"]⟩)]⟩ ⟨"StateChange", "bw2"⟩ "ERR oom"
     [] [] rfl).2⟩

/-- Claim C3: in any publish-pipeline trace, an `LPUSH` referencing the
event's index only occurs strictly after the `SET` storing the event body
under that same index, and the reply to that `SET` (the second reply of the
pipeline) was a success (neither null nor error-typed). -/
theorem c3_lpush_after_set (st : RedisWriterState) (ev : DomainEvent)
    (replies : List RedisReply) (st2 : RedisWriterState) (tr : List RedisCall)
    (k : Nat) (s : String) (i : Int)
    (h : HandleEvent st ev replies = some (st2, tr))
    (hk : tr[k]? = some (.lpushSub s i)) :
    ∃ j b, j < k ∧ tr[j]? = some (RedisCall.setEvent i b) ∧
      replies[1]?.map isSuccess = some true := by
  rcases HandleEvent_shape st ev replies st2 tr h with hnol |
    ⟨n, r2, r3, lrs, hrep, h2, h3, htr⟩
  · exfalso
    obtain ⟨hn, hv⟩ := List.getElem?_eq_some.mp hk
    exact hnol s i (hv ▸ List.getElem_mem hn)
  · subst htr
    subst hrep
    have hsucc : ((RedisReply.integer n :: r2 :: r3 :: lrs))[1]?.map isSuccess =
        some true := by
      simp [h2]
    match k with
    | 0 => simp at hk
    | 1 => simp at hk
    | 2 => simp at hk
    | (m + 3) =>
      simp only [List.getElem?_cons_succ] at hk
      have hmem : RedisCall.lpushSub s i ∈
          (fanOutLoop (toInt32 n) ev.type st.subscriptions lrs).2 := by
        obtain ⟨hn2, hv2⟩ := List.getElem?_eq_some.mp hk
        exact hv2 ▸ List.getElem_mem hn2
      obtain ⟨name, rsi, heq, hmemsub, hmatch⟩ :=
        fanOutLoop_mem (toInt32 n) ev.type st.subscriptions lrs _ hmem
      injection heq with hname hi
      subst hi
      exact ⟨1, ev.body, by omega, by simp, hsucc⟩

/-- Witness for C3 at a concrete run: one subscriber, successful replies,
the LPUSH at position 3 is preceded by the SET at position 1. -/
theorem c3_witness :
    HandleEvent ⟨true, [("ops", ⟨["StateChange"]⟩)]⟩ ⟨"StateChange", "bw3"⟩
        [.integer 7, .status "OK", .integer 1, .integer 1] =
      some (⟨true, [("ops", ⟨["StateChange"]⟩)]⟩,
        [.incrIdx, .setEvent 7 "bw3", .expireEvent 7 "bw3", .lpushSub "ops" 7]) ∧
    ([.incrIdx, .setEvent 7 "bw3", .expireEvent 7 "bw3", .lpushSub "ops" 7] :
        List RedisCall)[3]? = some (.lpushSub "ops" 7) ∧
    (∃ j b, j < 3 ∧
      ([.incrIdx, .setEvent 7 "bw3", .expireEvent 7 "bw3", .lpushSub "ops" 7] :
          List RedisCall)[j]? = some (RedisCall.setEvent 7 b) ∧
      ([.integer 7, .status "OK", .integer 1, .integer 1] :
          List RedisReply)[1]?.map isSuccess = some true) :=
  ⟨by decide, by decide,
   c3_lpush_after_set ⟨true, [("ops", ⟨["StateChange"]⟩)]⟩ ⟨"StateChange", "bw3"⟩
     [.integer 7, .status "OK", .integer 1, .integer 1]
     ⟨true, [("ops", ⟨["StateChange"]⟩)]⟩
     [.incrIdx, .setEvent 7 "bw3", .expireEvent 7 "bw3", .lpushSub "ops" 7] 3 "ops" 7
     (by decide) (by decide)⟩

/-- The LPUSH count over the fan-out calls for a map with distinct keys:
one for the named subscriber when present, zero otherwise. -/
theorem countP_lpushMap (s : String) (i : Int)
    (M : List (String × RedisSubscriptionInfo)) (hnd : (M.map Prod.fst).Nodup) :
    (M.map (fun p => RedisCall.lpushSub p.1 i)).countP (isLpushTo s) =
      if s ∈ M.map Prod.fst then 1 else 0 := by
  induction M with
  | nil => simp
  | cons p rest ih =>
    obtain ⟨name, rsi⟩ := p
    simp only [List.map_cons] at hnd ⊢
    rw [List.nodup_cons] at hnd
    rw [List.countP_cons]
    by_cases hns : name = s
    · subst hns
      simp [isLpushTo, ih hnd.2, hnd.1]
    · have hsn : ¬(s = name) := fun h => hns h.symm
      simp only [isLpushTo, List.countP_cons]
      rw [ih hnd.2]
      simp only [List.mem_cons, hsn, false_or]
      simp [hns]

/-- Claim C4: when the pipeline runs with successful replies throughout (and
enough replies for every matching subscriber), the fan-out issues exactly
one LPUSH to each subscriber whose filter set contains the event's type and
none to any subscriber whose filter set does not contain it. -/
theorem c4_fanout_exact (st : RedisWriterState) (ev : DomainEvent) (n : Int)
    (r2 r3 : RedisReply) (lrs : List RedisReply) (st2 : RedisWriterState)
    (tr : List RedisCall) (s : String)
    (hctx : st.context = true) (h2 : isSuccess r2 = true) (h3 : isSuccess r3 = true)
    (hall : ∀ r ∈ lrs, isSuccess r = true)
    (hlen : (st.subscriptions.filter
      (fun p => eventTypeMatches ev.type p.2)).length ≤ lrs.length)
    (hnd : (st.subscriptions.map Prod.fst).Nodup)
    (h : HandleEvent st ev (.integer n :: r2 :: r3 :: lrs) = some (st2, tr)) :
    tr.countP (isLpushTo s) =
      if s ∈ (st.subscriptions.filter
        (fun p => eventTypeMatches ev.type p.2)).map Prod.fst
      then 1 else 0 := by
  rw [HandleEvent_success st ev n r2 r3 lrs hctx h2 h3] at h
  simp only [Option.some.injEq, Prod.mk.injEq] at h
  obtain ⟨hst, htr⟩ := h
  subst htr
  rw [fanOutLoop_allSuccess (toInt32 n) ev.type st.subscriptions lrs hall hlen]
  have hnodupM : ((st.subscriptions.filter
      (fun p => eventTypeMatches ev.type p.2)).map Prod.fst).Nodup :=
    hnd.sublist ((List.filter_sublist st.subscriptions).map Prod.fst)
  have hpre : ∀ (l : List RedisCall) (i2 : Int) (b : String),
      (RedisCall.incrIdx :: RedisCall.setEvent i2 b :: RedisCall.expireEvent i2 b ::
        l).countP (isLpushTo s) = l.countP (isLpushTo s) := by
    intro l i2 b
    simp [List.countP_cons, isLpushTo]
  rw [hpre, countP_lpushMap s (toInt32 n) _ hnodupM]

/-- Witness for C4 at the spec's scenario: subscriber "ops-team" filters
StateChange and Notification, subscriber "billing" filters CommentAdded; a
StateChange event yields exactly one LPUSH to "ops-team" and none to
"billing". -/
theorem c4_witness :
    HandleEvent ⟨true, [("billing", ⟨["CommentAdded"]⟩),
        ("ops-team", ⟨["StateChange", "Notification"]⟩)]⟩ ⟨"StateChange", "bw4"⟩
        [.integer 9, .status "OK", .integer 1, .integer 1] =
      some (⟨true, [("billing", ⟨["CommentAdded"]⟩),
          ("ops-team", ⟨["StateChange", "Notification"]⟩)]⟩,
        [.incrIdx, .setEvent 9 "bw4", .expireEvent 9 "bw4", .lpushSub "ops-team" 9]) ∧
    ([.incrIdx, .setEvent 9 "bw4", .expireEvent 9 "bw4", .lpushSub "ops-team" 9] :
        List RedisCall).countP (isLpushTo "ops-team") = 1 ∧
    ([.incrIdx, .setEvent 9 "bw4", .expireEvent 9 "bw4", .lpushSub "ops-team" 9] :
        List RedisCall).countP (isLpushTo "billing") = 0 := by
  refine ⟨by decide, ?_, ?_⟩
  · have h := c4_fanout_exact ⟨true, [("billing", ⟨["CommentAdded"]⟩),
        ("ops-team", ⟨["StateChange", "Notification"]⟩)]⟩ ⟨"StateChange", "bw4"⟩ 9
        (.status "OK") (.integer 1) [.integer 1]
        ⟨true, [("billing", ⟨["CommentAdded"]⟩),
          ("ops-team", ⟨["StateChange", "Notification"]⟩)]⟩
        [.incrIdx, .setEvent 9 "bw4", .expireEvent 9 "bw4", .lpushSub "ops-team" 9]
        "ops-team" rfl rfl rfl (by decide) (by decide) (by decide) (by decide)
    rw [h]
    decide
  · have h := c4_fanout_exact ⟨true, [("billing", ⟨["CommentAdded"]⟩),
        ("ops-team", ⟨["StateChange", "Notification"]⟩)]⟩ ⟨"StateChange", "bw4"⟩ 9
        (.status "OK") (.integer 1) [.integer 1]
        ⟨true, [("billing", ⟨["CommentAdded"]⟩),
          ("ops-team", ⟨["StateChange", "Notification"]⟩)]⟩
        [.incrIdx, .setEvent 9 "bw4", .expireEvent 9 "bw4", .lpushSub "ops-team" 9]
        "billing" rfl rfl rfl (by decide) (by decide) (by decide) (by decide)
    rw [h]
    decide

/-- Claim C5, counterexample: with INCR reply value 2147483648 (one past the
32-bit signed range), the index embedded in the SET and EXPIRE commands is
-2147483648, which differs from the value the INCR allocation returned: the
`(int)` casts truncate, so the claim's "for every possible INCR reply
value" fails. -/
theorem c5_counterexample :
    HandleEvent ⟨true, []⟩ ⟨"StateChange", "body5"⟩
        [.integer 2147483648, .status "OK", .status "OK"] =
      some (⟨true, []⟩, [.incrIdx, .setEvent (-2147483648) "body5",
        .expireEvent (-2147483648) "body5"]) ∧
    ((-2147483648 : Int) ≠ 2147483648) := by
  exact ⟨by decide, by decide⟩

/-- Claim C5 (amended): every SET/EXPIRE/LPUSH issued for an event embeds
the INCR reply value truncated to a 32-bit signed int (`toInt32`); the
embedded index equals the INCR value exactly when that value lies in
[-2^31, 2^31), and within that range distinct, increasing INCR values yield
distinct, strictly increasing embedded indices. -/
theorem c5_amended (st : RedisWriterState) (ev : DomainEvent) (n : Int)
    (r2 r3 : RedisReply) (lrs : List RedisReply) (st2 : RedisWriterState)
    (tr : List RedisCall)
    (hctx : st.context = true) (h2 : isSuccess r2 = true) (h3 : isSuccess r3 = true)
    (h : HandleEvent st ev (.integer n :: r2 :: r3 :: lrs) = some (st2, tr)) :
    (∀ c ∈ tr, embedsIndex (toInt32 n) c = true) ∧
    (-2147483648 ≤ n → n < 2147483648 → toInt32 n = n) ∧
    (∀ m1 m2 : Int, -2147483648 ≤ m1 → m1 < m2 → m2 < 2147483648 →
      toInt32 m1 < toInt32 m2) := by
  refine ⟨?_, toInt32_eq_of_range n, ?_⟩
  · rw [HandleEvent_success st ev n r2 r3 lrs hctx h2 h3] at h
    simp only [Option.some.injEq, Prod.mk.injEq] at h
    obtain ⟨hst, htr⟩ := h
    subst htr
    intro c hc
    rcases hc with _ | ⟨_, hc⟩
    · simp [embedsIndex]
    rcases hc with _ | ⟨_, hc⟩
    · simp [embedsIndex]
    rcases hc with _ | ⟨_, hc⟩
    · simp [embedsIndex]
    obtain ⟨name, rsi, heq, hmemsub, hmatch⟩ :=
      fanOutLoop_mem (toInt32 n) ev.type st.subscriptions lrs c hc
    subst heq
    simp [embedsIndex]
  · intro m1 m2 hlo hlt hhi
    rw [toInt32_eq_of_range m1 hlo (by omega), toInt32_eq_of_range m2 (by omega) hhi]
    exact hlt

/-- Witness for C5 (amended) at a concrete in-range run. -/
theorem c5_witness :
    HandleEvent ⟨true, []⟩ ⟨"StateChange", "bw5"⟩
        [.integer 42, .status "OK", .status "OK"] =
      some (⟨true, []⟩, [.incrIdx, .setEvent 42 "bw5", .expireEvent 42 "bw5"]) ∧
    (∀ c ∈ ([.incrIdx, .setEvent 42 "bw5", .expireEvent 42 "bw5"] : List RedisCall),
      embedsIndex (toInt32 42) c = true) ∧
    toInt32 42 = 42 :=
  ⟨by decide,
   (c5_amended ⟨true, []⟩ ⟨"StateChange", "bw5"⟩ 42 (.status "OK") (.status "OK") []
     ⟨true, []⟩ [.incrIdx, .setEvent 42 "bw5", .expireEvent 42 "bw5"]
     rfl rfl rfl (by decide)).1,
   (c5_amended ⟨true, []⟩ ⟨"StateChange", "bw5"⟩ 42 (.status "OK") (.status "OK") []
     ⟨true, []⟩ [.incrIdx, .setEvent 42 "bw5", .expireEvent 42 "bw5"]
     rfl rfl rfl (by decide)).2.1 (by decide) (by decide)⟩

/-- Claim C6: for every published event whose INCR reply is an integer and
whose SET succeeded, the pipeline issues the expiration command at position
2 of the trace, and its wire form (the argv hiredis builds from the format
string `EXPIRE icinga:event.%d 3600`) is exactly the key and the literal
duration — the serialized body passed as an extra C argument is not
referenced by any format specifier and does not appear in the command. -/
theorem c6_expire_wire (st : RedisWriterState) (ev : DomainEvent) (n : Int)
    (r2 : RedisReply) (rest : List RedisReply) (st2 : RedisWriterState)
    (tr : List RedisCall)
    (hctx : st.context = true) (h2 : isSuccess r2 = true)
    (h : HandleEvent st ev (.integer n :: r2 :: rest) = some (st2, tr)) :
    tr[2]? = some (.expireEvent (toInt32 n) ev.body) ∧
    wire (.expireEvent (toInt32 n) ev.body) =
      ["EXPIRE", "icinga:event." ++ toString (toInt32 n), "3600"] := by
  refine ⟨?_, rfl⟩
  cases r2 with
  | nullReply => simp [isSuccess] at h2
  | error e => simp [isSuccess] at h2
  | status s2 =>
    cases rest with
    | nil =>
      simp [HandleEvent, hctx] at h
      obtain ⟨ha, hb⟩ := h
      subst hb
      simp
    | cons r3 rest3 =>
      cases r3 <;> (simp [HandleEvent, hctx] at h; obtain ⟨ha, hb⟩ := h; subst hb; simp)
  | integer n2 =>
    cases rest with
    | nil =>
      simp [HandleEvent, hctx] at h
      obtain ⟨ha, hb⟩ := h
      subst hb
      simp
    | cons r3 rest3 =>
      cases r3 <;> (simp [HandleEvent, hctx] at h; obtain ⟨ha, hb⟩ := h; subst hb; simp)
  | stringReply ss2 =>
    cases rest with
    | nil =>
      simp [HandleEvent, hctx] at h
      obtain ⟨ha, hb⟩ := h
      subst hb
      simp
    | cons r3 rest3 =>
      cases r3 <;> (simp [HandleEvent, hctx] at h; obtain ⟨ha, hb⟩ := h; subst hb; simp)
  | array a2 =>
    cases rest with
    | nil =>
      simp [HandleEvent, hctx] at h
      obtain ⟨ha, hb⟩ := h
      subst hb
      simp
    | cons r3 rest3 =>
      cases r3 <;> (simp [HandleEvent, hctx] at h; obtain ⟨ha, hb⟩ := h; subst hb; simp)

/-- Witness for C6 on a concrete run. -/
theorem c6_witness :
    HandleEvent ⟨true, []⟩ ⟨"StateChange", "bw6"⟩
        [.integer 11, .status "OK", .status "OK"] =
      some (⟨true, []⟩, [.incrIdx, .setEvent 11 "bw6", .expireEvent 11 "bw6"]) ∧
    ([.incrIdx, .setEvent 11 "bw6", .expireEvent 11 "bw6"] :
        List RedisCall)[2]? = some (.expireEvent (toInt32 11) "bw6") ∧
    wire (.expireEvent (toInt32 11) "bw6") =
      ["EXPIRE", "icinga:event." ++ toString (toInt32 11), "3600"] :=
  ⟨by decide,
   (c6_expire_wire ⟨true, []⟩ ⟨"StateChange", "bw6"⟩ 11 (.status "OK") [.status "OK"]
     ⟨true, []⟩ [.incrIdx, .setEvent 11 "bw6", .expireEvent 11 "bw6"]
     rfl rfl (by decide)).1,
   (c6_expire_wire ⟨true, []⟩ ⟨"StateChange", "bw6"⟩ 11 (.status "OK") [.status "OK"]
     ⟨true, []⟩ [.incrIdx, .setEvent 11 "bw6", .expireEvent 11 "bw6"]
     rfl rfl (by decide)).2⟩

/-- Claim C7: a refresh whose input holds N well-formed records and one
record whose value fails to decode completes, installs a table containing
exactly the N well-formed entries (the malformed record alone excluded),
and keeps the connection. -/
theorem c7_refresh_partial (decode : String → SubDecodeResult) (st : RedisWriterState)
    (l1 l2 : List (String × String)) (bk bv : String)
    (hctx : st.context = true)
    (hbad : decode bv = SubDecodeResult.decodeFail)
    (hgood : ∀ p ∈ l1 ++ l2, decode p.2 ≠ SubDecodeResult.decodeFail)
    (hnd : ((l1 ++ (bk, bv) :: l2).map Prod.fst).Nodup) :
    UpdateSubscriptions decode st (.array (flattenPairs (l1 ++ (bk, bv) :: l2))) =
      some ({ st with subscriptions :=
        (l1 ++ l2).map (fun p => (p.1, rsiOfDecoded (decode p.2))) }, [.hgetallSubs]) ∧
    ((l1 ++ l2).map (fun p => (p.1, rsiOfDecoded (decode p.2)))).length =
      (l1 ++ l2).length := by
  have hnd2 : ((l1 ++ l2).map Prod.fst).Nodup := by
    have hsub : List.Sublist (l1 ++ l2) (l1 ++ (bk, bv) :: l2) :=
      (List.sublist_cons_self (bk, bv) l2).append_left l1
    exact hnd.sublist (hsub.map Prod.fst)
  refine ⟨?_, by simp⟩
  simp [UpdateSubscriptions, hctx, toPairs_flattenPairs,
    buildTableLoop_skip decode l1 l2 bk bv hbad,
    buildTableLoop_toMap decode (l1 ++ l2) [] hgood hnd2 (by simp)]

/-- Witness for C7: two well-formed records around one malformed record
yield a table with exactly the two well-formed entries. -/
theorem c7_witness :
    UpdateSubscriptions
        (fun v => if v = "bad" then .decodeFail else .decoded (some [v]))
        ⟨true, []⟩
        (.array (flattenPairs [("a", "T1"), ("x", "bad"), ("b", "T2")])) =
      some (⟨true, [("a", ⟨["T1"]⟩), ("b", ⟨["T2"]⟩)]⟩, [.hgetallSubs]) ∧
    ([("a", ⟨["T1"]⟩), ("b", ⟨["T2"]⟩)] :
      List (String × RedisSubscriptionInfo)).length = 2 := by
  have h := c7_refresh_partial
    (fun v => if v = "bad" then .decodeFail else .decoded (some [v]))
    ⟨true, []⟩ [("a", "T1")] [("b", "T2")] "x" "bad"
    rfl (by decide) (by decide) (by decide)
  exact ⟨by simpa using h.1, by decide⟩

/-- Claim C8, counterexample: a reconnect from Disconnected with password
"hunter2" whose AUTH reply is error-typed (rejected credentials) leaves the
connection CONNECTED (`context = true`), not Disconnected as the claim
states: the source only logs the AUTH reply, and tears down only on a null
reply. -/
theorem c8_counterexample :
    TryToReconnect ⟨"", "127.0.0.1", 6379, "hunter2"⟩ ⟨false, []⟩ .ok
        (.error "ERR invalid password") =
      (⟨true, []⟩, [.auth "hunter2"]) ∧
    (⟨true, []⟩ : RedisWriterState).context = true := by
  exact ⟨rfl, rfl⟩

/-- Claim C8 (amended): during the AUTH exchange only a null reply
(transport failure) leaves the connection Disconnected with the context
released; an error- or status-typed AUTH reply is merely logged and the
connection is retained as Connected. -/
theorem c8_amended (cfg : RedisConfig) (st : RedisWriterState) (msg : String)
    (hctx : st.context = false) (hpw : cfg.password ≠ "") :
    TryToReconnect cfg st .ok .nullReply =
      ({ st with context := false }, [.auth cfg.password]) ∧
    TryToReconnect cfg st .ok (.error msg) =
      ({ st with context := true }, [.auth cfg.password]) := by
  constructor <;> simp [TryToReconnect, hctx, hpw]

/-- Witness for C8 (amended) at a concrete configuration. -/
theorem c8_witness :
    TryToReconnect ⟨"", "h8", 6379, "pw8"⟩ ⟨false, []⟩ .ok .nullReply =
      (⟨false, []⟩, [.auth "pw8"]) ∧
    TryToReconnect ⟨"", "h8", 6379, "pw8"⟩ ⟨false, []⟩ .ok (.error "ERR auth") =
      (⟨true, []⟩, [.auth "pw8"]) :=
  ⟨(c8_amended ⟨"", "h8", 6379, "pw8"⟩ ⟨false, []⟩ "ERR auth" rfl (by decide)).1,
   (c8_amended ⟨"", "h8", 6379, "pw8"⟩ ⟨false, []⟩ "ERR auth" rfl (by decide)).2⟩

/-- Claim C9: a reconnect attempt from Disconnected whose transport connect
succeeds transitions to Connected with no AUTH issued when no password is
configured; with a configured password, the command trace of the attempt is
exactly one AUTH — so the AUTH precedes any other command on the new
connection. -/
theorem c9_connect_auth (cfg : RedisConfig) (st : RedisWriterState)
    (authReply : RedisReply) (hctx : st.context = false) :
    (cfg.password = "" →
      TryToReconnect cfg st .ok authReply = ({ st with context := true }, [])) ∧
    (cfg.password ≠ "" →
      ∃ st2, TryToReconnect cfg st .ok authReply = (st2, [.auth cfg.password])) := by
  constructor
  · intro hpw
    simp [TryToReconnect, hctx, hpw]
  · intro hpw
    cases authReply with
    | nullReply =>
      exact ⟨{ st with context := false }, by simp [TryToReconnect, hctx, hpw]⟩
    | status s => exact ⟨{ st with context := true }, by simp [TryToReconnect, hctx, hpw]⟩
    | error s => exact ⟨{ st with context := true }, by simp [TryToReconnect, hctx, hpw]⟩
    | integer n => exact ⟨{ st with context := true }, by simp [TryToReconnect, hctx, hpw]⟩
    | stringReply s =>
      exact ⟨{ st with context := true }, by simp [TryToReconnect, hctx, hpw]⟩
    | array a => exact ⟨{ st with context := true }, by simp [TryToReconnect, hctx, hpw]⟩

/-- Witness for C9: no password yields Connected with an empty trace;
a configured password yields a trace of exactly one AUTH. -/
theorem c9_witness :
    TryToReconnect ⟨"", "h9", 6379, ""⟩ ⟨false, []⟩ .ok (.status "OK") =
      (⟨true, []⟩, []) ∧
    (∃ st2, TryToReconnect ⟨"", "h9", 6379, "pw9"⟩ ⟨false, []⟩ .ok (.status "OK") =
      (st2, [.auth "pw9"])) :=
  ⟨(c9_connect_auth ⟨"", "h9", 6379, ""⟩ ⟨false, []⟩ (.status "OK") rfl).1 rfl,
   (c9_connect_auth ⟨"", "h9", 6379, "pw9"⟩ ⟨false, []⟩ (.status "OK") rfl).2
     (by decide)⟩

/-- Claim C10: a subscriber record that decodes but has no `types` field is
installed with an empty filter set, and a subscriber whose installed filter
set is empty never receives any fan-out LPUSH. -/
theorem c10_empty_filter :
    (∀ (decode : String → SubDecodeResult) (st : RedisWriterState)
        (l1 l2 : List (String × String)) (k v : String),
      st.context = true →
      decode v = SubDecodeResult.decoded none →
      (∀ p ∈ l1 ++ (k, v) :: l2, decode p.2 ≠ SubDecodeResult.decodeFail) →
      ((l1 ++ (k, v) :: l2).map Prod.fst).Nodup →
      ∃ st2, UpdateSubscriptions decode st
          (.array (flattenPairs (l1 ++ (k, v) :: l2))) = some (st2, [.hgetallSubs]) ∧
        mapLookup k st2.subscriptions = some ⟨[]⟩) ∧
    (∀ (st : RedisWriterState) (ev : DomainEvent) (replies : List RedisReply)
        (st2 : RedisWriterState) (tr : List RedisCall) (s : String),
      HandleEvent st ev replies = some (st2, tr) →
      (st.subscriptions.map Prod.fst).Nodup →
      mapLookup s st.subscriptions = some ⟨[]⟩ →
      ∀ i, RedisCall.lpushSub s i ∉ tr) := by
  constructor
  · intro decode st l1 l2 k v hctx hdecv hgood hnd
    refine ⟨⟨st.context,
        (l1 ++ (k, v) :: l2).map (fun p => (p.1, rsiOfDecoded (decode p.2)))⟩, ?_, ?_⟩
    · simp [UpdateSubscriptions, hctx, toPairs_flattenPairs,
        buildTableLoop_toMap decode (l1 ++ (k, v) :: l2) [] hgood hnd (by simp)]
    · have hmem : (k, rsiOfDecoded (decode v)) ∈ (l1 ++ (k, v) :: l2).map
          (fun p => (p.1, rsiOfDecoded (decode p.2))) :=
        List.mem_map.mpr ⟨(k, v), by simp, rfl⟩
      rw [hdecv] at hmem
      have hndm : (((l1 ++ (k, v) :: l2).map
          (fun p => (p.1, rsiOfDecoded (decode p.2)))).map Prod.fst).Nodup := by
        rw [List.map_map]
        have hfst : (Prod.fst ∘ fun p : String × String =>
            (p.1, rsiOfDecoded (decode p.2))) = Prod.fst := by
          funext p
          rfl
        rw [hfst]
        exact hnd
      exact mapLookup_of_mem_nodup k _ _ hndm hmem
  · intro st ev replies st2 tr s h hnd hlook i hmem
    rcases HandleEvent_shape st ev replies st2 tr h with hnol |
      ⟨n, r2, r3, lrs, hrep, h2, h3, htr⟩
    · exact hnol s i hmem
    · subst htr
      simp only [List.mem_cons] at hmem
      rcases hmem with hmem | hmem | hmem | hmem
      · simp at hmem
      · simp at hmem
      · simp at hmem
      · obtain ⟨name, rsi, heq, hmemsub, hmatch⟩ :=
          fanOutLoop_mem (toInt32 n) ev.type st.subscriptions lrs _ hmem
        injection heq with hname hi
        subst hname
        have hlk := mapLookup_of_mem_nodup s rsi st.subscriptions hnd hmemsub
        rw [hlook] at hlk
        injection hlk with hrsi
        rw [← hrsi] at hmatch
        simp [eventTypeMatches] at hmatch

/-- Witness for C10: a record with no `types` field installs subscriber "t"
with an empty filter, and a publish with "t" holding an empty filter issues
no LPUSH to "t". -/
theorem c10_witness :
    (∃ st2, UpdateSubscriptions (fun _ => .decoded none) ⟨true, []⟩
        (.array (flattenPairs [("t", "v10")])) = some (st2, [.hgetallSubs]) ∧
      mapLookup "t" st2.subscriptions = some ⟨[]⟩) ∧
    (∀ i, RedisCall.lpushSub "t" i ∉
      ([.incrIdx, .setEvent 4 "bw10", .expireEvent 4 "bw10"] : List RedisCall)) :=
  ⟨c10_empty_filter.1 (fun _ => .decoded none) ⟨true, []⟩ [] [] "t" "v10"
     rfl rfl (by decide) (by decide),
   c10_empty_filter.2 ⟨true, [("t", ⟨[]⟩)]⟩ ⟨"StateChange", "bw10"⟩
     [.integer 4, .status "OK", .status "OK"] ⟨true, [("t", ⟨[]⟩)]⟩
     [.incrIdx, .setEvent 4 "bw10", .expireEvent 4 "bw10"]
     "t" (by decide) (by decide) (by decide)⟩
